import Mathlib

/-!
Verification development for the `jira-issue-creator` GitHub Action
(`src/index.js`, `src/action.yml`).

JavaScript strings are modelled as `List Char`.  The development embeds:

* the description normalizer `removeTimestamp` (index.js lines 138-140),
  i.e. `description.replace(/\n\nLast updated: .+$/, "")`.  In a
  JavaScript regex without flags, `.` matches any character except the
  four line terminators `\n`, `\r`, U+2028, U+2029, and `$` matches only
  at the very end of the input; `String.replace` with a non-global regex
  replaces the leftmost match.  Hence the call removes the suffix starting
  at the leftmost position whose remainder is the literal label
  `"\n\nLast updated: "` followed by one or more non-line-terminator
  characters reaching the end of the string, and leaves the string
  unchanged when no such position exists.
* the HTTP transport `sendHttpRequest` (index.js lines 39-105) as a
  recursion over an abstract stream of per-attempt responses.
* the orchestrator `createOrUpdateJiraStory` (index.js lines 172-218) as
  a function from a run configuration and an abstract remote environment
  to the list of remote calls issued, the emitted output and the
  failure flag.
-/

/-- The four JavaScript line terminators (the characters `.` does not match). -/
def lineTerm (c : Char) : Bool :=
  c = '\n' || c = '\r' || c = Char.ofNat 0x2028 || c = Char.ofNat 0x2029

/-- The literal part of the regex in `removeTimestamp` (index.js line 139). -/
def tsLabel : List Char := "\n\nLast updated: ".data

/-- `labelAt s` holds when `s` starts with the literal `"\n\nLast updated: "`
(`tsLabel` has length 16). -/
def labelAt (s : List Char) : Bool := s.take 16 == tsLabel

/-- `isTrailer s` holds when the regex `\n\nLast updated: .+$` matches at the
start of `s` and reaches the end of the input: the label, then one or more
characters none of which is a line terminator, ending the string. -/
def isTrailer (s : List Char) : Bool :=
  labelAt s && !(s.drop 16).isEmpty && (s.drop 16).all (fun c => !lineTerm c)

/-- `removeTimestamp` (index.js lines 138-140): delete the leftmost
regex match, which necessarily extends to the end of the string. -/
def removeTimestamp : List Char → List Char
  | [] => []
  | c :: cs => if isTrailer (c :: cs) then [] else c :: removeTimestamp cs

/-- Number of positions of `s` at which the literal label occurs. -/
def countLabel : List Char → Nat
  | [] => 0
  | c :: cs => (if labelAt (c :: cs) then 1 else 0) + countLabel cs

theorem removeTimestamp_of_isTrailer (s : List Char) (h : isTrailer s = true) :
    removeTimestamp s = [] := by
  cases s with
  | nil => simp [isTrailer, labelAt, tsLabel] at h
  | cons c cs => simp [removeTimestamp, h]

theorem labelAt_take_eq {s : List Char} (h : labelAt s = true) : s.take 16 = tsLabel :=
  eq_of_beq h

theorem labelAt_length {s : List Char} (h : labelAt s = true) : 16 ≤ s.length := by
  have h1 := labelAt_take_eq h
  have h2 : (s.take 16).length = 16 := by rw [h1]; decide
  simp [List.length_take] at h2
  omega

theorem isTrailer_decomp {s : List Char} (h : isTrailer s = true) :
    s = tsLabel ++ s.drop 16 ∧ s.drop 16 ≠ [] ∧
      ∀ c ∈ s.drop 16, lineTerm c = false := by
  have h' := h
  unfold isTrailer at h'
  rw [Bool.and_eq_true, Bool.and_eq_true] at h'
  obtain ⟨⟨hl, hne⟩, hall⟩ := h'
  refine ⟨?_, ?_, ?_⟩
  · conv_lhs => rw [← List.take_append_drop 16 s]
    rw [labelAt_take_eq hl]
  · simpa using hne
  · intro c hc
    have := List.all_eq_true.mp hall c hc
    simpa using this

/-- If the regex matches at the start of `s`, no `'\n'` occurs in `s` past
the first two characters (the label has its newlines at positions 0 and 1,
and everything after the label is line-terminator free). -/
theorem isTrailer_no_newline_drop2 {s : List Char} (h : isTrailer s = true) :
    '\n' ∉ s.drop 2 := by
  obtain ⟨hs, _, hall⟩ := isTrailer_decomp h
  intro hm
  rw [hs] at hm
  rw [List.drop_append_of_le_length (by decide : 2 ≤ tsLabel.length)] at hm
  rcases List.mem_append.mp hm with h1 | h2
  · revert h1; decide
  · have := hall _ h2
    simp [lineTerm] at this

theorem newline_mem_drop2 (x : Char) (xs t : List Char) :
    '\n' ∈ ((x :: xs) ++ (tsLabel ++ t)).drop 2 := by
  cases xs with
  | nil =>
    have : ((x :: ([] : List Char)) ++ (tsLabel ++ t)).drop 2 = (tsLabel ++ t).drop 1 := rfl
    rw [this, List.drop_append_of_le_length (by decide : 1 ≤ tsLabel.length)]
    exact List.mem_append.mpr (Or.inl (by decide))
  | cons y ys =>
    have : ((x :: y :: ys) ++ (tsLabel ++ t)).drop 2 = ys ++ (tsLabel ++ t) := rfl
    rw [this]
    exact List.mem_append.mpr (Or.inr (List.mem_append.mpr (Or.inl (by decide))))

theorem isTrailer_append_label (t : List Char) (hne : t ≠ [])
    (hlt : ∀ c ∈ t, lineTerm c = false) : isTrailer (tsLabel ++ t) = true := by
  unfold isTrailer labelAt
  rw [Bool.and_eq_true, Bool.and_eq_true]
  have h16 : (16 : Nat) = tsLabel.length := by decide
  refine ⟨⟨?_, ?_⟩, ?_⟩
  · rw [h16, List.take_left]
    exact beq_self_eq_true tsLabel
  · rw [h16, List.drop_left]
    simpa using hne
  · rw [h16, List.drop_left]
    exact List.all_eq_true.mpr (fun c hc => by simp [hlt c hc])

/-- Claim C3 (amended): for every description `D` and every timestamp
string `t` that is non-empty and contains no JavaScript line terminator,
stripping the trailer from `D ++ "\n\nLast updated: " ++ t` returns
exactly `D`.  (The unrestricted claim fails: with `t = ""` the regex
`.+` cannot match, and a `t` containing a line terminator also defeats
the match; timestamps actually produced by the workflow satisfy both
conditions.) -/
theorem removeTimestamp_attach (D t : List Char) (hne : t ≠ [])
    (hlt : ∀ c ∈ t, lineTerm c = false) :
    removeTimestamp (D ++ tsLabel ++ t) = D := by
  induction D with
  | nil =>
    rw [List.nil_append]
    exact removeTimestamp_of_isTrailer _ (isTrailer_append_label t hne hlt)
  | cons c D' ih =>
    have hassoc : (c :: D') ++ tsLabel ++ t = c :: (D' ++ (tsLabel ++ t)) := by
      simp
    rw [hassoc]
    have hfalse : isTrailer (c :: (D' ++ (tsLabel ++ t))) = false := by
      by_contra hcon
      rw [Bool.not_eq_false] at hcon
      exact isTrailer_no_newline_drop2 hcon (newline_mem_drop2 c D' t)
    rw [removeTimestamp, if_neg (by simp [hfalse])]
    rw [show D' ++ (tsLabel ++ t) = D' ++ tsLabel ++ t by simp] at *
    rw [ih]

theorem removeTimestamp_isSuffix (s : List Char) :
    ∃ w, s = removeTimestamp s ++ w := by
  induction s with
  | nil => exact ⟨[], rfl⟩
  | cons c cs ih =>
    by_cases h : isTrailer (c :: cs) = true
    · exact ⟨c :: cs, by simp [removeTimestamp, h]⟩
    · obtain ⟨w, hw⟩ := ih
      refine ⟨w, ?_⟩
      rw [removeTimestamp, if_neg (by simp [h])]
      rw [List.cons_append, ← hw]

theorem labelAt_append {u : List Char} (w : List Char) (h : labelAt u = true) :
    labelAt (u ++ w) = true := by
  unfold labelAt at *
  have hu : u.take 16 = tsLabel := eq_of_beq h
  have hlen : 16 ≤ u.length := labelAt_length h
  rw [List.take_append_of_le_length hlen, hu]
  exact beq_self_eq_true tsLabel

theorem countLabel_of_noLabel {s : List Char} (h : countLabel s = 0) :
    removeTimestamp s = s := by
  induction s with
  | nil => rfl
  | cons c cs ih =>
    rw [countLabel] at h
    have hl : labelAt (c :: cs) = false := by
      by_contra hcon
      rw [Bool.not_eq_false] at hcon
      rw [if_pos hcon] at h
      omega
    have hcs : countLabel cs = 0 := by
      rw [if_neg (by simp [hl])] at h
      omega
    have ht : isTrailer (c :: cs) = false := by
      unfold isTrailer
      rw [hl]
      rfl
    rw [removeTimestamp, if_neg (by simp [ht]), ih hcs]

theorem isTrailer_labelAt {s : List Char} (h : isTrailer s = true) :
    labelAt s = true := by
  unfold isTrailer at h
  rw [Bool.and_eq_true, Bool.and_eq_true] at h
  exact h.1.1

theorem countLabel_removeTimestamp (s : List Char) :
    removeTimestamp s = s ∨ countLabel (removeTimestamp s) < countLabel s := by
  induction s with
  | nil => exact Or.inl rfl
  | cons c cs ih =>
    by_cases h : isTrailer (c :: cs) = true
    · right
      rw [removeTimestamp_of_isTrailer _ h]
      have hla := isTrailer_labelAt h
      simp only [countLabel, hla, if_true]
      omega
    · have hstep : removeTimestamp (c :: cs) = c :: removeTimestamp cs := by
        rw [removeTimestamp, if_neg (by simp [h])]
      rcases ih with heq | hlt
      · left
        rw [hstep, heq]
      · right
        rw [hstep]
        simp only [countLabel]
        obtain ⟨w, hw⟩ := removeTimestamp_isSuffix cs
        have hmono : labelAt (c :: removeTimestamp cs) = true →
            labelAt (c :: cs) = true := by
          intro hla
          have : (c :: removeTimestamp cs) ++ w = c :: cs := by
            rw [List.cons_append, ← hw]
          rw [← this]
          exact labelAt_append w hla
        by_cases hla : labelAt (c :: removeTimestamp cs) = true
        · rw [if_pos hla, if_pos (hmono hla)]
          omega
        · rw [if_neg hla]
          by_cases hlb : labelAt (c :: cs) = true
          · rw [if_pos hlb]; omega
          · rw [if_neg hlb]; omega

/-- Claim C4 (amended): `removeTimestamp` is idempotent on every string
in which the literal label `"\n\nLast updated: "` occurs at most once.
(Unrestricted idempotence fails on strings with two occurrences, where
the first strip can expose a new trailing match.) -/
theorem removeTimestamp_idem_of_le_one (D : List Char) (h : countLabel D ≤ 1) :
    removeTimestamp (removeTimestamp D) = removeTimestamp D := by
  rcases countLabel_removeTimestamp D with heq | hlt
  · rw [heq]; exact heq
  · exact countLabel_of_noLabel (by omega)

/-- One response the remote end gives to one HTTP attempt: either a status
code with a raw body, or a network-level error carrying a message
(index.js lines 53-100). -/
inductive HResp where
  | status (code : Nat) (body : List Char)
  | netErr (msg : List Char)
deriving DecidableEq

/-- The value a successful call resolves with (index.js lines 61-75):
`empty` models `resolve("")` for a whitespace-only body, `json v` models
resolving with `JSON.parse`d data, `raw body` models the parse-failure
leniency of resolving with the raw text. -/
inductive RespVal (J : Type) where
  | empty
  | json (v : J)
  | raw (body : List Char)
deriving DecidableEq

/-- What one `sendHttpRequest` invocation did: how many HTTP attempts were
made, the backoff waits performed between attempts (in order, in ms), and
whether the promise resolved (`Except.ok`) or rejected (`Except.error`). -/
structure SendTrace (J : Type) where
  attempts : Nat
  waits : List Nat
  result : Except (List Char) (RespVal J)

/-- The characters removed by JavaScript `String.prototype.trim`
(WhiteSpace and LineTerminator code points). -/
def jsWhitespace (c : Char) : Bool :=
  c = '\t' || c = '\n' || c = Char.ofNat 11 || c = Char.ofNat 12 || c = '\r' ||
  c = ' ' || c = Char.ofNat 0xA0 || c = Char.ofNat 0x1680 ||
  (0x2000 ≤ c.toNat && c.toNat ≤ 0x200A) || c = Char.ofNat 0x2028 ||
  c = Char.ofNat 0x2029 || c = Char.ofNat 0x202F || c = Char.ofNat 0x205F ||
  c = Char.ofNat 0x3000 || c = Char.ofNat 0xFEFF

/-- JavaScript `String.prototype.trim`. -/
def jsTrim (s : List Char) : List Char :=
  ((s.dropWhile jsWhitespace).reverse.dropWhile jsWhitespace).reverse

/-- The 2xx body handling of index.js lines 61-75, with the JSON parser
abstracted as `parse` (`some` = `JSON.parse` succeeds, `none` = it throws). -/
def classify2xx {J : Type} (parse : List Char → Option J) (body : List Char) :
    RespVal J :=
  if jsTrim body == [] then RespVal.empty
  else
    match parse body with
    | some v => RespVal.json v
    | none => RespVal.raw body

/-- The rejection message of index.js line 84: `HTTP ${status}: ${body}`. -/
def errMsg (code : Nat) (body : List Char) : List Char :=
  "HTTP ".data ++ (toString code).data ++ ": ".data ++ body

/-- `sendHttpRequest` (index.js lines 39-105) over an abstract stream
`resps` of per-attempt responses (`resps i` answers attempt number `i`).
The `retries` and `delay` parameters mirror the source signature
(`retries = 3, delay = 1000`); each retry recurses with `retries - 1` and
`delay * 2` after waiting `delay` (lines 76-82 for status 429,
lines 89-100 for network errors). -/
def send {J : Type} (parse : List Char → Option J) (resps : Nat → HResp) :
    Nat → Nat → Nat → SendTrace J
  | i, retries, delay =>
    match resps i with
    | HResp.status code body =>
      if 200 ≤ code ∧ code < 300 then
        ⟨1, [], Except.ok (classify2xx parse body)⟩
      else
        match retries with
        | 0 => ⟨1, [], Except.error (errMsg code body)⟩
        | Nat.succ r =>
          if code = 429 then
            let rest := send parse resps (i + 1) r (delay * 2)
            ⟨rest.attempts + 1, delay :: rest.waits, rest.result⟩
          else ⟨1, [], Except.error (errMsg code body)⟩
    | HResp.netErr msg =>
      match retries with
      | 0 => ⟨1, [], Except.error msg⟩
      | Nat.succ r =>
        let rest := send parse resps (i + 1) r (delay * 2)
        ⟨rest.attempts + 1, delay :: rest.waits, rest.result⟩

/-- Default retry budget of `sendHttpRequest` (index.js line 39). -/
def sendDefaultRetries : Nat := 3

/-- Default base delay of `sendHttpRequest` in ms (index.js line 39). -/
def sendDefaultDelay : Nat := 1000

/-- An issue as the orchestrator sees it from the search response
(index.js lines 190-192): its key and its `fields.description`, which may
be missing (`null`). -/
structure Issue where
  key : List Char
  description : Option (List Char)
deriving DecidableEq

/-- A sprint from the board's future-sprint list (index.js line 160). -/
structure Sprint where
  id : Int
  name : List Char
deriving DecidableEq

/-- The run configuration read from the action inputs (index.js
lines 26-33).  `retryCount` mirrors the `retry_count` input declared in
action.yml lines 28-30; index.js contains no `core.getInput("retry_count")`
call, so no field of the code reads it. -/
structure Config where
  jiraBaseUrl : List Char
  jiraUserEmail : List Char
  jiraApiToken : List Char
  jiraProjectKey : List Char
  issueSummary : List Char
  issueDescription : List Char
  boardId : List Char
  sprintName : List Char
  retryCount : Option Nat
deriving DecidableEq

/-- `validateInputs` (index.js lines 6-23): every required input must be
non-empty (`core.getInput` yields `""` for a missing input, which is
falsy). -/
def validInputs (cfg : Config) : Bool :=
  !cfg.jiraBaseUrl.isEmpty && !cfg.jiraUserEmail.isEmpty &&
  !cfg.jiraApiToken.isEmpty && !cfg.jiraProjectKey.isEmpty &&
  !cfg.issueSummary.isEmpty && !cfg.issueDescription.isEmpty &&
  !cfg.boardId.isEmpty && !cfg.sprintName.isEmpty

/-- The retry budget each transport call actually runs with.  Every call
site of `sendHttpRequest` (index.js lines 110, 123, 156, 231, 237) omits
the `retries` argument, so the signature default of line 39 applies; the
configured `retryCount` is never consulted. -/
def transportRetryBudget (_cfg : Config) : Nat :=
  (none : Option Nat).getD sendDefaultRetries

/-- One remote call of the orchestrator, recorded with the data it sends. -/
inductive JCall where
  | search (jql : List Char)
  | getSprints
  | put (issueKey : List Char) (description : List Char)
  | createIssue (description : List Char) (sprintId : Int)
  | assignSprint (issueKey : List Char) (sprintId : Int)
deriving DecidableEq

/-- The JQL string of index.js line 176. -/
def jqlOf (cfg : Config) : List Char :=
  "project = ".data ++ cfg.jiraProjectKey ++ " AND summary ~ \"".data ++
    cfg.issueSummary ++ "\" AND status != Done".data

/-- The timestamp trailer the workflow appends (index.js line 181):
`\n\nZuletzt aktualisiert: ` followed by the formatted timestamp. -/
def germanLabel : List Char := "\n\nZuletzt aktualisiert: ".data

/-- What the remote side would answer each call of one run.  `none` for
`searchResult` models a failing search request or a response without an
`issues` array; `none` for `sprintList` models a failing sprint fetch or a
response without a `values` array; `createdKey = some k` models a create
POST that succeeds and returns key `k`. -/
structure Env where
  searchResult : Option (List Issue)
  sprintList : Option (List Sprint)
  putOk : Bool
  createdKey : Option (List Char)
  assignOk : Bool
  ts : List Char

/-- Outcome of one run of `createOrUpdateJiraStory`: the remote calls
issued in order, the `issue_key` output if `core.setOutput` ran, and
whether the run failed (`core.setFailed`, index.js lines 214-217). -/
structure RunResult where
  calls : List JCall
  output : Option (List Char)
  failed : Bool
deriving DecidableEq

/-- `createOrUpdateJiraStory` (index.js lines 172-218).  The source order
is kept: input validation (174), search (176-177), sprint resolution
(184) with the `!sprintId` falsiness check (186-188, an id of `0` is
falsy), then the update-or-skip branch for a non-empty match list
(190-208) or the create-then-assign path (210-213). -/
def run (cfg : Config) (env : Env) : RunResult :=
  if validInputs cfg then
    let jql := jqlOf cfg
    match env.searchResult with
    | none => ⟨[JCall.search jql], none, true⟩
    | some issues =>
      let updatedDescription := cfg.issueDescription ++ germanLabel ++ env.ts
      match env.sprintList with
      | none => ⟨[JCall.search jql, JCall.getSprints], none, true⟩
      | some sl =>
        match sl.find? (fun s => s.name == cfg.sprintName) with
        | none => ⟨[JCall.search jql, JCall.getSprints], none, true⟩
        | some sp =>
          if sp.id == 0 then ⟨[JCall.search jql, JCall.getSprints], none, true⟩
          else
            match issues with
            | [] =>
              let t0 := [JCall.search jql, JCall.getSprints,
                JCall.createIssue updatedDescription sp.id]
              match env.createdKey with
              | none => ⟨t0, none, true⟩
              | some k =>
                let t1 := t0 ++ [JCall.assignSprint k sp.id]
                if env.assignOk then ⟨t1, some k, false⟩ else ⟨t1, none, true⟩
            | issue :: _ =>
              let existingDescription := issue.description.getD []
              if !(removeTimestamp existingDescription ==
                    removeTimestamp cfg.issueDescription) then
                let t0 := [JCall.search jql, JCall.getSprints,
                  JCall.put issue.key updatedDescription]
                if env.putOk then
                  let t1 := t0 ++ [JCall.assignSprint issue.key sp.id]
                  if env.assignOk then ⟨t1, some issue.key, false⟩
                  else ⟨t1, none, true⟩
                else ⟨t0, none, true⟩
              else ⟨[JCall.search jql, JCall.getSprints], some issue.key, false⟩
  else ⟨[], none, true⟩

/-- Is a call a description-update PUT? -/
def isPut : JCall → Bool
  | JCall.put _ _ => true
  | _ => false

/-- Is a call an issue-creation POST? -/
def isCreate : JCall → Bool
  | JCall.createIssue _ _ => true
  | _ => false

/-- Is a call a sprint-assignment POST? -/
def isAssign : JCall → Bool
  | JCall.assignSprint _ _ => true
  | _ => false

/-- Is a call the issue search? -/
def isSearch : JCall → Bool
  | JCall.search _ => true
  | _ => false

/-- A valid configuration used by the concrete scenarios. -/
def cfgA : Config :=
  { jiraBaseUrl := "https://example.atlassian.net".data
    jiraUserEmail := "user@example.com".data
    jiraApiToken := "token".data
    jiraProjectKey := "PROJ".data
    issueSummary := "Fix login bug".data
    issueDescription := "Fix login".data
    boardId := "7".data
    sprintName := "Sprint 1".data
    retryCount := none }

/-- A future sprint whose name matches `cfgA`'s requested sprint. -/
def sprintA : Sprint := { id := 42, name := "Sprint 1".data }

/-- The timestamp used by the concrete re-run scenario. -/
def tsA : List Char := "01.01.2024, 10:00:00".data

/-- The description stored by a previous run: the desired description with
the workflow's own trailer (index.js line 181) appended. -/
def storedA : List Char := cfgA.issueDescription ++ germanLabel ++ tsA

/-- Environment of a re-run: the search finds the issue written by the
previous run, and the requested sprint exists. -/
def envA : Env :=
  { searchResult := some [{ key := "PROJ-5".data, description := some storedA }]
    sprintList := some [sprintA]
    putOk := true
    createdKey := none
    assignOk := true
    ts := "02.01.2024, 10:00:00".data }

/-- Claim C1: the spec says a re-run whose stored description is the
desired description plus the workflow's timestamp trailer strips both
sides, finds them equal, and performs no PUT.  The code violates this:
it appends the trailer `"\n\nZuletzt aktualisiert: <ts>"` (index.js
line 181) but strips only `"\n\nLast updated: <ts>"` (line 139), so the
stored description is left unchanged by `removeTimestamp`, the comparison
at lines 195-198 sees a difference, and the PUT is issued on every re-run.
This contradicts the comment `Compare descriptions without timestamps`
at line 194; the label mismatch is a slip in the code. -/
theorem german_trailer_forces_put :
    removeTimestamp storedA = storedA ∧
    storedA ≠ cfgA.issueDescription ∧
    (run cfgA envA).calls.any isPut = true := by
  refine ⟨by decide, by decide, by decide⟩

/-- The first matching issue of the C2 counterexample: its stored
description is byte-identical to the desired description. -/
def issueB : Issue := { key := "PROJ-5".data, description := some "Fix login".data }

/-- Environment for the C2 counterexample: the search matches, the
descriptions agree, but the board has no future sprint at all. -/
def envB : Env :=
  { searchResult := some [issueB]
    sprintList := some []
    putOk := true
    createdKey := none
    assignOk := true
    ts := "02.01.2024, 10:00:00".data }

/-- Claim C2, counterexample: search returns one issue and the stripped
descriptions are equal, yet no `issue_key` output is emitted, because the
code resolves the sprint (index.js line 184) before comparing and fails
the whole run when the sprint is absent.  (No PUT and no assignment
happen, but the output conjunct of the claim fails.) -/
theorem skip_branch_output_cex :
    envB.searchResult = some [issueB] ∧
    removeTimestamp (issueB.description.getD []) =
      removeTimestamp cfgA.issueDescription ∧
    (run cfgA envB).output ≠ some issueB.key ∧
    (run cfgA envB).failed = true := by
  refine ⟨rfl, by decide, by decide, by decide⟩

/-- Claim C2 (amended): if in addition sprint resolution succeeds (the
future-sprint list is fetched, a sprint with the exactly matching name is
found, and its id is not the falsy `0`), then a run whose search returns
at least one issue with stripped stored description equal to the stripped
desired description makes no PUT and no sprint-assignment call, emits the
first matching issue's key, and succeeds. -/
theorem skip_branch_no_mutation (cfg : Config) (env : Env) (issue : Issue)
    (rest : List Issue) (sl : List Sprint) (sp : Sprint)
    (hval : validInputs cfg = true)
    (hsearch : env.searchResult = some (issue :: rest))
    (hdesc : removeTimestamp (issue.description.getD []) =
      removeTimestamp cfg.issueDescription)
    (hsl : env.sprintList = some sl)
    (hfind : sl.find? (fun s => s.name == cfg.sprintName) = some sp)
    (hid : sp.id ≠ 0) :
    (run cfg env).calls.any isPut = false ∧
    (run cfg env).calls.any isAssign = false ∧
    (run cfg env).output = some issue.key ∧
    (run cfg env).failed = false := by
  obtain ⟨sr, slo, pok, ck, aok, tss⟩ := env
  simp only at hsearch hsl
  subst hsearch
  subst hsl
  have hid' : (sp.id == 0) = false := beq_eq_false_iff_ne.mpr hid
  simp [run, hval, hfind, hid', hdesc, isPut, isAssign]

/-- Environment for the C2 witness: as `envB` but the sprint exists. -/
def envC : Env :=
  { searchResult := some [issueB]
    sprintList := some [sprintA]
    putOk := true
    createdKey := none
    assignOk := true
    ts := "02.01.2024, 10:00:00".data }

theorem skip_branch_no_mutation_witness :
    (run cfgA envC).calls.any isPut = false ∧
    (run cfgA envC).calls.any isAssign = false ∧
    (run cfgA envC).output = some issueB.key ∧
    (run cfgA envC).failed = false :=
  skip_branch_no_mutation cfgA envC issueB [] [sprintA] sprintA
    (by decide) rfl (by decide) rfl (by decide) (by decide)

/-- Claim C5: when the future-sprint list was fetched (hence the
preceding search succeeded) and no sprint in it bears exactly the
requested name, the run fails and no issue-creation POST, issue-update
PUT or sprint-assignment POST is ever attempted (index.js lines 160-165
throw inside `getSprintId`, caught at lines 214-217 before any mutation). -/
theorem sprint_absent_no_mutation (cfg : Config) (env : Env)
    (issues : List Issue) (sl : List Sprint)
    (hval : validInputs cfg = true)
    (hsearch : env.searchResult = some issues)
    (hsl : env.sprintList = some sl)
    (habs : ∀ s ∈ sl, s.name ≠ cfg.sprintName) :
    (run cfg env).failed = true ∧
    (run cfg env).calls.any isCreate = false ∧
    (run cfg env).calls.any isPut = false ∧
    (run cfg env).calls.any isAssign = false := by
  have hfind : sl.find? (fun s => s.name == cfg.sprintName) = none :=
    List.find?_eq_none.mpr (fun s hs => by simp [habs s hs])
  obtain ⟨sr, slo, pok, ck, aok, tss⟩ := env
  simp only at hsearch hsl
  subst hsearch
  subst hsl
  simp [run, hval, hfind, isCreate, isPut, isAssign]

/-- Environment whose board has no future sprint at all, with an empty
search result. -/
def envD : Env :=
  { searchResult := some []
    sprintList := some []
    putOk := true
    createdKey := none
    assignOk := true
    ts := "02.01.2024, 10:00:00".data }

theorem sprint_absent_no_mutation_witness :
    (run cfgA envD).failed = true ∧
    (run cfgA envD).calls.any isCreate = false ∧
    (run cfgA envD).calls.any isPut = false ∧
    (run cfgA envD).calls.any isAssign = false :=
  sprint_absent_no_mutation cfgA envD [] []
    (by decide) rfl rfl (by decide)

/-- Claim C6, counterexample: the spec's step list puts sprint-id
resolution before the search, so that with the sprint absent the search
is never issued; but in the code (index.js line 177 versus line 184) the
search request is issued first, as this run with an absent sprint shows. -/
theorem search_issued_despite_absent_sprint_cex :
    envD.sprintList = some [] ∧
    ([] : List Sprint).find? (fun s => s.name == cfgA.sprintName) = none ∧
    (run cfgA envD).calls.any isSearch = true := by
  refine ⟨rfl, rfl, by decide⟩

/-- Claim C6 (amended): the orchestrator performs the issue search before
sprint-id resolution; when the named sprint is absent, the run's remote
calls are exactly the search followed by the sprint fetch — the search
has already been issued, and nothing follows the failed resolution. -/
theorem search_precedes_sprint_resolution (cfg : Config) (env : Env)
    (issues : List Issue) (sl : List Sprint)
    (hval : validInputs cfg = true)
    (hsearch : env.searchResult = some issues)
    (hsl : env.sprintList = some sl)
    (habs : ∀ s ∈ sl, s.name ≠ cfg.sprintName) :
    (run cfg env).calls = [JCall.search (jqlOf cfg), JCall.getSprints] ∧
    (run cfg env).failed = true := by
  have hfind : sl.find? (fun s => s.name == cfg.sprintName) = none :=
    List.find?_eq_none.mpr (fun s hs => by simp [habs s hs])
  obtain ⟨sr, slo, pok, ck, aok, tss⟩ := env
  simp only at hsearch hsl
  subst hsearch
  subst hsl
  simp [run, hval, hfind]

theorem search_precedes_sprint_resolution_witness :
    (run cfgA envD).calls = [JCall.search (jqlOf cfgA), JCall.getSprints] ∧
    (run cfgA envD).failed = true :=
  search_precedes_sprint_resolution cfgA envD [] []
    (by decide) rfl rfl (by decide)

/-- Claim C10: in the create path the POST creating the issue completes
before the explicit sprint-assignment call, and the output is set only
after both; when creation succeeds but the assignment fails, the run
fails with no `issue_key` output even though the issue was created
(index.js lines 210-217: `addIssueToSprint` rejects before
`core.setOutput` runs, and the catch block marks the run failed). -/
theorem create_then_assign_not_atomic (cfg : Config) (env : Env)
    (sl : List Sprint) (sp : Sprint) (k : List Char)
    (hval : validInputs cfg = true)
    (hsearch : env.searchResult = some [])
    (hsl : env.sprintList = some sl)
    (hfind : sl.find? (fun s => s.name == cfg.sprintName) = some sp)
    (hid : sp.id ≠ 0)
    (hck : env.createdKey = some k)
    (hassign : env.assignOk = false) :
    (run cfg env).calls = [JCall.search (jqlOf cfg), JCall.getSprints,
      JCall.createIssue (cfg.issueDescription ++ germanLabel ++ env.ts) sp.id,
      JCall.assignSprint k sp.id] ∧
    (run cfg env).failed = true ∧
    (run cfg env).output = none := by
  obtain ⟨sr, slo, pok, ck, aok, tss⟩ := env
  simp only at hsearch hsl hck hassign
  subst hsearch
  subst hsl
  subst hck
  subst hassign
  have hid' : (sp.id == 0) = false := beq_eq_false_iff_ne.mpr hid
  simp [run, hval, hfind, hid']

/-- Environment for the C10 witness: empty search result, sprint found,
creation succeeds, assignment fails. -/
def envE : Env :=
  { searchResult := some []
    sprintList := some [sprintA]
    putOk := true
    createdKey := some "PROJ-9".data
    assignOk := false
    ts := "02.01.2024, 10:00:00".data }

theorem create_then_assign_not_atomic_witness :
    (run cfgA envE).calls = [JCall.search (jqlOf cfgA), JCall.getSprints,
      JCall.createIssue (cfgA.issueDescription ++ germanLabel ++ envE.ts) sprintA.id,
      JCall.assignSprint "PROJ-9".data sprintA.id] ∧
    (run cfgA envE).failed = true ∧
    (run cfgA envE).output = none :=
  create_then_assign_not_atomic cfgA envE [sprintA] sprintA "PROJ-9".data
    (by decide) rfl rfl (by decide) (by decide) rfl rfl

/-- Claim C7: on a 429 with positive retry budget the transport waits the
current delay and retries the same request with the budget decremented
and the delay doubled (first conjunct, the general step law); in
particular a 429 answered by a 201 on the retry resolves successfully
after exactly 2 attempts with the single wait equal to the base delay,
under the defaults `retries = 3`, `delay = 1000` (second conjunct). -/
theorem retry429_backoff (J : Type) (parse : List Char → Option J)
    (resps : Nat → HResp) :
    (∀ (i r d : Nat) (b : List Char), resps i = HResp.status 429 b → 0 < r →
      send parse resps i r d =
        ⟨(send parse resps (i + 1) (r - 1) (d * 2)).attempts + 1,
          d :: (send parse resps (i + 1) (r - 1) (d * 2)).waits,
          (send parse resps (i + 1) (r - 1) (d * 2)).result⟩) ∧
    (∀ (b b2 : List Char), resps 0 = HResp.status 429 b →
      resps 1 = HResp.status 201 b2 →
      send parse resps 0 sendDefaultRetries sendDefaultDelay =
        ⟨2, [sendDefaultDelay], Except.ok (classify2xx parse b2)⟩) := by
  constructor
  · intro i r d b h429 hr
    match r, hr with
    | Nat.succ r', _ =>
      rw [send, h429]
      norm_num
  · intro b b2 h0 h1
    rw [show sendDefaultRetries = 3 from rfl, show sendDefaultDelay = 1000 from rfl]
    rw [send, h0]
    norm_num
    rw [send, h1]
    norm_num

/-- A response stream for the transport witnesses: a 429 on the first
attempt, a 201 with body `"x"` afterwards. -/
def wResps : Nat → HResp := fun i =>
  if i = 0 then HResp.status 429 [] else HResp.status 201 "x".data

theorem retry429_backoff_witness :
    send (fun _ => (none : Option Nat)) wResps 0 sendDefaultRetries sendDefaultDelay =
      ⟨2, [sendDefaultDelay], Except.ok (RespVal.raw "x".data)⟩ := by
  have h := (retry429_backoff Nat (fun _ => none) wResps).2 [] "x".data rfl rfl
  rw [h]
  rfl

/-- Claim C8: any attempt answered with a 2xx status resolves (never
rejects), in a single attempt with no waits; a whitespace-only body gives
the distinguished empty result, a body the JSON parser accepts gives the
parsed value, and a body the parser rejects gives the raw text
(index.js lines 61-75). -/
theorem twoxx_always_resolves (J : Type) (parse : List Char → Option J)
    (resps : Nat → HResp) (i retries delay code : Nat) (body : List Char)
    (hresp : resps i = HResp.status code body)
    (h200 : 200 ≤ code) (h300 : code < 300) :
    send parse resps i retries delay =
      ⟨1, [], Except.ok (classify2xx parse body)⟩ ∧
    (jsTrim body = [] → classify2xx parse body = RespVal.empty) ∧
    (∀ v, jsTrim body ≠ [] → parse body = some v →
      classify2xx parse body = RespVal.json v) ∧
    (jsTrim body ≠ [] → parse body = none →
      classify2xx parse body = RespVal.raw body) := by
  refine ⟨?_, ?_, ?_, ?_⟩
  · rw [send, hresp]
    dsimp only
    rw [if_pos ⟨h200, h300⟩]
  · intro he
    simp [classify2xx, he]
  · intro v hne hp
    have hbe : (jsTrim body == []) = false := beq_eq_false_iff_ne.mpr hne
    simp [classify2xx, hbe, hp]
  · intro hne hp
    have hbe : (jsTrim body == []) = false := beq_eq_false_iff_ne.mpr hne
    simp [classify2xx, hbe, hp]

/-- A response stream answering every attempt with `204 No Content`. -/
def wResps204 : Nat → HResp := fun _ => HResp.status 204 []

theorem twoxx_always_resolves_witness :
    send (fun _ => (none : Option Nat)) wResps204 0 3 1000 =
      ⟨1, [], Except.ok RespVal.empty⟩ := by
  have h := twoxx_always_resolves Nat (fun _ => none) wResps204 0 3 1000 204 []
    rfl (by decide) (by decide)
  rw [h.1, h.2.1 rfl]

/-- A configuration that provides the optional `retry_count` input. -/
def cfgRetry5 : Config := { cfgA with retryCount := some 5 }

/-- Claim C9: the spec says the transport's retry budget equals the
configured retry count when one is provided.  The code violates this:
action.yml lines 28-30 declare the `retry_count` input, but index.js
never reads it (lines 26-33 read the other eight inputs only) and every
call site of `sendHttpRequest` omits the `retries` argument, so the
budget is always the hard-coded default 3 — here a configured value of 5
is ignored. -/
theorem retry_budget_ignores_config :
    cfgRetry5.retryCount = some 5 ∧
    transportRetryBudget cfgRetry5 = 3 ∧
    transportRetryBudget cfgRetry5 ≠ 5 := by
  refine ⟨rfl, rfl, by decide⟩

/-- Claim C3, counterexample: with the empty timestamp `t = ""` the regex
`\n\nLast updated: .+$` does not match (`.+` needs at least one
character), so stripping after attaching does not return `D`: for
`D = "a"` the result keeps the dangling label. -/
theorem attach_strip_roundtrip_cex :
    removeTimestamp ("a".data ++ tsLabel ++ ([] : List Char)) ≠ "a".data := by
  decide

theorem removeTimestamp_attach_witness :
    "now".data ≠ ([] : List Char) ∧
    removeTimestamp ("doc".data ++ tsLabel ++ "now".data) = "doc".data :=
  ⟨by decide, removeTimestamp_attach "doc".data "now".data (by decide) (by decide)⟩

/-- A description in which the label occurs twice. -/
def doubleLabel : List Char := "x\n\nLast updated: a\n\nLast updated: b".data

/-- Claim C4, counterexample: `removeTimestamp` is not idempotent on every
string.  With two occurrences of the label, the first strip removes only
the final trailer (the earlier candidate is blocked by the later
newlines), leaving a string that ends in a fresh trailer, which a second
strip removes as well. -/
theorem strip_not_idempotent_cex :
    removeTimestamp (removeTimestamp doubleLabel) ≠ removeTimestamp doubleLabel := by
  decide

theorem strip_idem_witness :
    countLabel "abc".data ≤ 1 ∧
    removeTimestamp (removeTimestamp "abc".data) = removeTimestamp "abc".data :=
  ⟨by decide, removeTimestamp_idem_of_le_one "abc".data (by decide)⟩
